import Mathlib

/-!
Shallow embedding of `pysar/_readfile.py` (the unified raster reader of this
repository) and proofs about it.

Conventions used throughout:
* Python text is modelled at the character level (`List Char`), with the
  Python string operations (`str.split()`, `str.strip()`, `str.startswith`,
  `str.replace`, `.split('#')[0]`) re-implemented faithfully below.
* `numpy` arrays are modelled as row lists (`Mat`); `a[r0:r1, c0:c1]` slicing
  uses Python slice-clamping semantics for nonnegative indices, which is
  exactly `(List.take hi).drop lo` per axis.
* Fallible Python code (KeyError, StopIteration, ValueError on reshape,
  IndexError, failed `h5py` accesses, `sys.exit`) is modelled with `Option`:
  any crash or exit of the original function is `none`.
* Machine floats are idealised: scalar element streams are kept abstract in a
  type `σ`; the complex amplitude/phase maths of `read_complex_float32` is
  instantiated at `ℂ` with `Complex.abs` (numpy `hypot(re, im)`) and
  `Complex.arg` (numpy `arctan2(im, re)`).
-/

namespace PySar

/-! ## Python string primitives -/

/-- Python's whitespace set used by `str.split()` / `str.strip()`. -/
def pyIsSpace (c : Char) : Bool :=
  c = ' ' ∨ c = '\t' ∨ c = '\n' ∨ c = '\r' ∨ c = '\x0b' ∨ c = '\x0c'

/-- Helper for `pySplitWs`: accumulates the current token (reversed). -/
def pySplitWsAux : List Char → List Char → List (List Char)
  | [], acc => if acc.isEmpty then [] else [acc.reverse]
  | c :: cs, acc =>
      if pyIsSpace c then
        if acc.isEmpty then pySplitWsAux cs [] else acc.reverse :: pySplitWsAux cs []
      else pySplitWsAux cs (c :: acc)

/-- Python `str.split()` with no argument: split on runs of whitespace,
dropping empty tokens. -/
def pySplitWs (s : List Char) : List (List Char) := pySplitWsAux s []

/-- Python `str.strip()`: remove leading and trailing whitespace. -/
def pyStripWs (s : List Char) : List Char :=
  ((s.dropWhile pyIsSpace).reverse.dropWhile pyIsSpace).reverse

/-- Python `s.split('#')[0]`: the text before the first `'#'`. -/
def takeUntilHash (s : List Char) : List Char := s.takeWhile (fun c => c ≠ '#')

/-- Python `str.replace(s, '\n', '')` for the single-character pattern. -/
def removeNl (s : List Char) : List Char := s.filter (fun c => c ≠ '\n')

/-- Python `s.startswith(c)` for a single-character argument. -/
def pyStartsWith (c : Char) (s : List Char) : Bool := s.head? = some c

/-- Helper for `pyLines`: split on `'\n'`, keeping empty pieces, like
`str.split('\n')`. -/
def pyLinesAux : List Char → List Char → List (List Char)
  | [], acc => [acc.reverse]
  | c :: cs, acc => if c = '\n' then acc.reverse :: pyLinesAux cs [] else pyLinesAux cs (c :: acc)

/-- The lines of a file's content. Python's `for line in f` yields lines with
their trailing `'\n'`; since every consumer below either whitespace-splits the
line or inspects its first character, keeping the line bodies (as
`str.split('\n')` produces them, with one extra final empty piece for a
newline-terminated file, which every consumer skips) is observationally
identical. -/
def pyLines (s : List Char) : List (List Char) := pyLinesAux s []

/-- Parse a nonnegative decimal integer literal. The source parses dimensions
with `int(float(atr['WIDTH']))`; sidecar writers store plain decimal integers,
for which this is the same function. -/
def pyNat? (s : String) : Option Nat :=
  match s.data with
  | [] => none
  | ds => ds.foldl (fun acc c =>
      match acc with
      | none => none
      | some a => if '0' ≤ c ∧ c ≤ '9' then some (a * 10 + (c.toNat - '0'.toNat)) else none)
      (some 0)

/-! ## Attribute mappings (Python `dict` with string keys and values) -/

/-- Attribute mapping: association list with unique keys. -/
abbrev AttrMap := List (String × String)

/-- Python `d[k]` lookup (`None`-free: `Option`). -/
def aget (m : AttrMap) (k : String) : Option String :=
  (m.find? (fun p => p.1 = k)).map (fun p => p.2)

/-- Python `d[k] = v`: replace in place if the key exists, else append.
(Keys are unique in every mapping built here, so replacing the first
occurrence is the dictionary update.) -/
def aset : AttrMap → String → String → AttrMap
  | [], k, v => [(k, v)]
  | p :: t, k, v => if p.1 = k then (k, v) :: t else p :: aset t k v

/-- Build a dict from a pair list, later pairs overriding earlier ones. -/
def dictOfPairs (l : List (String × String)) : AttrMap :=
  l.foldl (fun m p => aset m p.1 p.2) []

/-! ## Sidecar parsers -/

/-- One iteration of the `read_gamma_par` line loop (`_readfile.py`
lines 162-167): whitespace-split the line; if it has fewer than two tokens or
is a `%`/`#` comment, skip it; otherwise store
`l[0].strip()` ↦ `str.replace(l[1],'\n','').split('#')[0].strip()`. -/
def parseParLine (d : AttrMap) (line : List Char) : AttrMap :=
  match pySplitWs line with
  | k :: v :: _ =>
      if pyStartsWith '%' line ∨ pyStartsWith '#' line then d
      else aset d (String.mk (pyStripWs k)) (String.mk (pyStripWs (takeUntilHash (removeNl v))))
  | _ => d

/-- `read_gamma_par` (lines 154-172): skip two header lines (`next(f)` twice;
a file with fewer than two lines raises `StopIteration`), parse the remaining
lines into a dict, then synthesize `WIDTH` from `'range_samples:'` and
`FILE_LENGTH` from `'azimuth_lines:'` (a missing source key raises
`KeyError`). -/
def read_gamma_par (content : List Char) : Option AttrMap :=
  match pyLines content with
  | _ :: _ :: rest => do
      let d := rest.foldl parseParLine []
      let wv ← aget d "range_samples:"
      let lv ← aget d "azimuth_lines:"
      pure (aset (aset d "WIDTH" wv) "FILE_LENGTH" lv)
  | _ => none

/-- `read_roipac_rsc` (lines 146-151): `dict(np.loadtxt(File, dtype=str))`.
The environment supplies the whitespace-tokenized rows of the text file
(`np.loadtxt`'s tokenization); `loadtxt` + `dict` fail unless every row has
exactly two tokens. -/
def read_roipac_rsc (rows : List (List String)) : Option AttrMap := do
  let prs ← rows.mapM (fun r =>
    match r with
    | [a, b] => some (a, b)
    | _ => none)
  pure (dictOfPairs prs)

/-- `read_isce_xml` (lines 175-196). The `ElementTree` extraction is
abstracted: the environment supplies the `(name, value)` pairs of the
`property` elements in document order. Afterwards `WIDTH` is synthesized from
`'width'` and `FILE_LENGTH` from `'length'` (KeyError when absent). -/
def read_isce_xml (props : List (String × String)) : Option AttrMap := do
  let d := dictOfPairs props
  let wv ← aget d "width"
  let lv ← aget d "length"
  pure (aset (aset d "WIDTH" wv) "FILE_LENGTH" lv)

/-! ## The `FILE_TYPE → UNIT` table (lines 107-115 of `read_attributes`) -/

/-- The fixed unit table of `read_attributes`. -/
def unitOf (ft : String) : String :=
  if ft ∈ ["interferograms", "wrapped", ".unw", ".int", ".flat"] then "radian"
  else if ft ∈ ["timeseries", "dem", ".dem", ".hgt"] then "m"
  else if ft ∈ ["velocity"] then "m/yr"
  else "1"

/-- The final stage of `read_attributes`: read `atr['FILE_TYPE']` (KeyError if
absent) and unconditionally assign `atr['UNIT']` from the fixed table. -/
def applyUnit (atr : AttrMap) : Option AttrMap :=
  (aget atr "FILE_TYPE").map (fun ft => aset atr "UNIT" (unitOf ft))

/-! ## Matrices and numpy slicing -/

/-- A 2-D numpy array as a list of rows. -/
abbrev Mat (σ : Type) := List (List σ)

/-- Python slice `l[a:b]` for nonnegative bounds (out-of-range bounds clamp). -/
def pySlice (l : List α) (a b : Nat) : List α := (l.take b).drop a

/-- numpy `m[y0:y1, x0:x1]`. -/
def crop2 (m : Mat σ) (x0 y0 x1 y1 : Nat) : Mat σ :=
  (pySlice m y0 y1).map (fun r => pySlice r x0 x1)

/-- Partition a list into `rows` rows of `cols` elements each. -/
def chunkRows (cols : Nat) : Nat → List σ → Mat σ
  | 0, _ => []
  | r + 1, l => l.take cols :: chunkRows cols r (l.drop cols)

/-- `np.fromfile(File, dtype, count).reshape(rows, cols)`: `fromfile` reads at
most `count` elements from the stream; `reshape` raises `ValueError` unless
exactly `rows * cols` elements were read. -/
def fromfileReshape (stream : List σ) (count rows cols : Nat) : Option (Mat σ) :=
  if (stream.take count).length = rows * cols
  then some (chunkRows cols rows (stream.take count)) else none

/-- Elementwise map over a matrix. -/
def mapMat (f : σ → σ) (m : Mat σ) : Mat σ := m.map (fun r => r.map f)

/-- Elementwise combination of two equal-shape matrices. -/
def zipMat (f : σ → σ → σ) (m1 m2 : Mat σ) : Mat σ :=
  List.zipWith (List.zipWith f) m1 m2

/-- Elements at even positions (numpy fancy index `range(0, n, 2)`). -/
def evens : List σ → List σ
  | [] => []
  | [a] => [a]
  | a :: _ :: rest => a :: evens rest

/-- Elements at odd positions (numpy fancy index `range(1, n, 2)`). -/
def odds : List σ → List σ
  | [] => []
  | [_] => []
  | _ :: b :: rest => b :: odds rest

/-! ## The hierarchical container (`h5py`) model -/

/-- A node of an HDF5 file: a dataset (with attached attributes, as strings)
or a group with attached attributes and named children. -/
inductive H5Node (σ : Type) where
  | dset (attrs : List (String × String)) (m : Mat σ)
  | grp (attrs : List (String × String)) (children : List (String × H5Node σ))

/-- The attached attribute set of a node (`node.attrs`). -/
def H5Node.nodeAttrs : H5Node σ → List (String × String)
  | .dset a _ => a
  | .grp a _ => a

/-- The named children of a node (`node.keys()` / subscripting source). -/
def H5Node.children : H5Node σ → List (String × H5Node σ)
  | .dset _ _ => []
  | .grp _ ch => ch

/-- `node[name]`: child lookup, `KeyError` when absent. -/
def h5child (n : H5Node σ) (name : String) : Option (H5Node σ) :=
  (n.children.find? (fun p => p.1 = name)).map (fun p => p.2)

/-- The dataset obtained through `node.get(name)` followed by slicing.
`h5py`'s `.get` returns `None` for a missing name (slicing `None` then
crashes) and returns a group object for a subgroup (slicing a group also
crashes), so only a present dataset yields data. -/
def h5get (n : H5Node σ) (name : String) : Option (Mat σ) :=
  match h5child n name with
  | some (.dset _ m) => some m
  | _ => none

/-- Lexicographically sort names (Python `sorted`). -/
def sortStrings (l : List String) : List String :=
  l.insertionSort (fun a b => a ≤ b)

/-! ## The input environment

One `read`/`read_attributes` call touches the raster file itself plus the
side files probed next to it.  The environment captures, for one raster file
path, everything those probes can observe; fields for files that do not exist
are `none`. -/

structure Env (σ : Type) where
  /-- `os.path.splitext(File)[1].lower()`. -/
  ext : String
  /-- `os.path.isfile(File)`. -/
  fileExists : Bool
  /-- Contents of the HDF5 container, when the file opens as one. -/
  h5 : Option (List (String × H5Node σ))
  /-- Whitespace-tokenized rows of `File + '.rsc'`, when that file exists. -/
  rsc : Option (List (List String))
  /-- `property` name/value pairs of `File + '.xml'`, when it exists. -/
  xml : Option (List (String × String))
  /-- Raw content of `File + '.par'`, when it exists. -/
  par : Option (List Char)
  /-- Raw content of `splitext(File)[0] + '.par'`, when it exists. -/
  stemPar : Option (List Char)
  /-- The raster file's element stream, in the element type of whichever
  decoder the dispatcher selects for this extension. -/
  stream : List σ
  /-- The decoded pixel matrix, when the file is a browsable image. -/
  img : Mat σ

/-! ## `read_attributes` (lines 46-117) -/

/-- The branch part of `read_attributes` (lines 51-105): pick the sidecar
scheme, parse it, and set `PROCESSOR` and `FILE_TYPE`. -/
def branchAttrs (env : Env σ) : Option AttrMap :=
  if env.fileExists = false then none
  else if env.ext = ".h5" ∨ env.ext = ".he5" then do
    let root ← env.h5
    let ks := root.map (fun p => p.1)
    let k0 ← if "interferograms" ∈ ks then some "interferograms"
             else if "coherence" ∈ ks then some "coherence"
             else if "timeseries" ∈ ks then some "timeseries"
             else ks.head?
    let node ← (root.find? (fun p => p.1 = k0)).map (fun p => p.2)
    let attrs ←
      if k0 ∈ ["interferograms", "coherence", "wrapped"] then
        (node.children.head?).map (fun c => c.2.nodeAttrs)
      else if k0 ∈ ["dem", "velocity", "mask", "temporal_coherence", "rmse", "timeseries"] then
        some node.nodeAttrs
      else none
    let atr := aset (aset (dictOfPairs attrs) "PROCESSOR" "pysar") "FILE_TYPE" k0
    if k0 = "timeseries" then
      match aget atr "ref_date" with
      | some _ => some atr
      | none =>
          match (sortStrings (node.children.map (fun p => p.1))).head? with
          | some d => some (aset atr "ref_date" d)
          | none => none
    else some atr
  else match env.rsc with
  | some rows =>
      (read_roipac_rsc rows).map (fun a =>
        aset (aset a "PROCESSOR" "roipac") "FILE_TYPE" env.ext)
  | none => match env.xml with
    | some props =>
        (read_isce_xml props).map (fun a =>
          aset (aset a "PROCESSOR" "isce") "FILE_TYPE" env.ext)
    | none => match env.par with
      | some c =>
          (read_gamma_par c).map (fun a =>
            aset (aset a "PROCESSOR" "gamma") "FILE_TYPE" env.ext)
      | none => match env.stemPar with
        | some c =>
            (read_gamma_par c).map (fun a =>
              aset (aset a "PROCESSOR" "gamma") "FILE_TYPE" env.ext)
        | none => none

/-- `read_attributes`: the branch parse followed by the unconditional
`UNIT` assignment of lines 107-115. -/
def read_attributes (env : Env σ) : Option AttrMap :=
  (branchAttrs env).bind applyUnit

/-! ## Windowed binary decoders (lines 210-355) -/

/-- A pixel window `(x0, y0, x1, y1)`: left, upper, right, lower pixel
coordinate, half-open. -/
structure Box where
  x0 : Nat
  y0 : Nat
  x1 : Nat
  y1 : Nat
deriving DecidableEq

/-- `int(float(atr[k]))`. -/
def pyDim (atr : AttrMap) (k : String) : Option Nat := (aget atr k).bind pyNat?

/-- The scalar operations the complex decoders need.  The source applies
`np.hypot(data.real, data.imag)`, `np.arctan2(data.imag, data.real)` and
`real + imag*1j`; keeping them as a record lets the whole decode pipeline stay
parametric in the element type while `complexOps` below supplies the real
mathematical meaning at `ℂ`. -/
structure ScalarOps (σ : Type) where
  /-- `np.hypot(z.real, z.imag)` as a map on the complex scalar. -/
  hypotRI : σ → σ
  /-- `np.arctan2(z.imag, z.real)` as a map on the complex scalar. -/
  atan2IR : σ → σ
  /-- `re + im * 1j`. -/
  mkC : σ → σ → σ

/-- The intended instantiation: complex samples, numpy `hypot` of real and
imaginary part is the complex modulus, numpy `arctan2(imag, real)` is the
principal argument.  `noncomputable` only because real square roots are. -/
noncomputable def complexOps : ScalarOps ℂ where
  hypotRI := fun z => (Complex.abs z : ℂ)
  atan2IR := fun z => (z.arg : ℂ)
  mkC := fun re im => re + im * Complex.I

/-- `read_float32` (lines 210-249), the RMG side-by-side decoder: read
`box[3]` full rows of `2*width` elements, then slice the amplitude plane from
columns `box[0]:box[2]` and the phase plane from columns
`width+box[0]:width+box[2]` of rows `box[1]:box[3]`.  `none` box means the
one-argument call, which defaults the box to `[0, 0, width, length]`. -/
def read_float32 (env : Env σ) (box? : Option Box) :
    Option (Mat σ × Mat σ × AttrMap) := do
  let atr ← read_attributes env
  let width ← pyDim atr "WIDTH"
  let length ← pyDim atr "FILE_LENGTH"
  let box := box?.getD ⟨0, 0, width, length⟩
  let data ← fromfileReshape env.stream (box.y1 * (2 * width)) box.y1 (2 * width)
  let amplitude := crop2 data box.x0 box.y0 box.x1 box.y1
  let phase := crop2 data (width + box.x0) box.y0 (width + box.x1) box.y1
  pure (amplitude, phase, atr)

/-- Result of `read_complex_float32`, which returns either an
amplitude/phase pair (flag `real_imag == 0`) or the raw complex plane. -/
inductive CF32Out (σ : Type) where
  | ap (amplitude phase : Mat σ) (atr : AttrMap)
  | raw (data : Mat σ) (atr : AttrMap)

/-- `read_complex_float32` (lines 253-282), the interleaved-complex decoder:
reshape `length*width` complex elements to `(length, width)`; with
`real_imag == 0` return elementwise amplitude (`np.hypot(re, im)`) and phase
(`np.arctan2(im, re)`), else return the complex plane itself.  (The
`np.array([...]).reshape(length, width)` around the elementwise maps is an
identity on an array already of that shape.) -/
def read_complex_float32 (env : Env σ) (ops : ScalarOps σ) (real_imag : Nat) :
    Option (CF32Out σ) := do
  let atr ← read_attributes env
  let width ← pyDim atr "WIDTH"
  let length ← pyDim atr "FILE_LENGTH"
  let data ← fromfileReshape env.stream (length * width) length width
  if real_imag = 0 then
    pure (.ap (mapMat ops.hypotRI data) (mapMat ops.atan2IR data) atr)
  else
    pure (.raw data atr)

/-- `read_real_float32` (lines 285-296): reshape the whole stream to
`(length, width)`. -/
def read_real_float32 (env : Env σ) : Option (Mat σ × AttrMap) := do
  let atr ← read_attributes env
  let width ← pyDim atr "WIDTH"
  let length ← pyDim atr "FILE_LENGTH"
  let data ← fromfileReshape env.stream env.stream.length length width
  pure (data, atr)

/-- `read_complex_int16` (lines 300-329), the interleaved 16-bit complex
decoder: read `box[3]` rows of `2*width` scalars, slice rows
`box[1]:box[3]` and columns `2*box[0]:2*box[2]`, flatten
(`reshape(2*nlines*WIDTH, 1)` fails unless the slice has exactly that many
elements), de-interleave even/odd positions into real and imaginary planes of
shape `(nlines, WIDTH)`, and combine `real + imag*1j`. -/
def read_complex_int16 (env : Env σ) (ops : ScalarOps σ) (box? : Option Box) :
    Option (Mat σ × AttrMap) := do
  let atr ← read_attributes env
  let width ← pyDim atr "WIDTH"
  let length ← pyDim atr "FILE_LENGTH"
  let box := box?.getD ⟨0, 0, width, length⟩
  let nlines := box.y1 - box.y0
  let w := box.x1 - box.x0
  let data ← fromfileReshape env.stream (box.y1 * (2 * width)) box.y1 (2 * width)
  let flat := (crop2 data (2 * box.x0) box.y0 (2 * box.x1) box.y1).flatten
  if flat.length = 2 * nlines * w then
    let real := chunkRows w nlines (evens flat)
    let imag := chunkRows w nlines (odds flat)
    pure (zipMat ops.mkC real imag, atr)
  else none

/-- `read_real_int16` (lines 342-355): reshape the whole stream to
`(length, width)`. -/
def read_real_int16 (env : Env σ) : Option (Mat σ × AttrMap) := do
  let atr ← read_attributes env
  let width ← pyDim atr "WIDTH"
  let length ← pyDim atr "FILE_LENGTH"
  let dem ← fromfileReshape env.stream env.stream.length length width
  pure (dem, atr)

/-! ## The dispatcher `read` (lines 375-521) -/

/-- Modelled from the spec: `subset.subset_attributes` lives in a module of
this repository that is not part of the sources here; per the spec the
attributes are "recompute[d] for the cropped extent (so returned
`WIDTH`/`FILE_LENGTH` reflect the actual returned shape)". -/
def subset_attributes (atr : AttrMap) (b : Box) : AttrMap :=
  aset (aset atr "WIDTH" (toString (b.x1 - b.x0))) "FILE_LENGTH" (toString (b.y1 - b.y0))

/-- Lines 407-412 of `read`: when a box is supplied, compare its area with
the full extent and recompute the attributes when the box is strictly
smaller. -/
def updateAtrForBox (atr : AttrMap) (box? : Option Box) : Option AttrMap :=
  match box? with
  | none => some atr
  | some b => do
      let width ← pyDim atr "WIDTH"
      let length ← pyDim atr "FILE_LENGTH"
      pure (if (b.x1 - b.x0) * (b.y1 - b.y0) < width * length
            then subset_attributes atr b else atr)

/-- The result of one `read` call: one or two data planes plus attributes. -/
inductive ReadResult (σ : Type) where
  | one (data : Mat σ) (atr : AttrMap)
  | two (d1 d2 : Mat σ) (atr : AttrMap)

/-- The attribute mapping carried by a result. -/
def ReadResult.attrs : ReadResult σ → AttrMap
  | .one _ a => a
  | .two _ _ a => a

/-- Whether the result has two data planes. -/
def ReadResult.isTwo : ReadResult σ → Bool
  | .one _ _ => false
  | .two _ _ _ => true

/-- `if box: data = data[box[1]:box[3], box[0]:box[2]]`. -/
def cropIf (box? : Option Box) (m : Mat σ) : Mat σ :=
  match box? with
  | some b => crop2 m b.x0 b.y0 b.x1 b.y1
  | none => m

/-- `read(File, box=(), epoch='')` (lines 375-521).  Every failure mode of
the original (`sys.exit`, an uncaught `KeyError`/`TypeError`/`NameError`, the
`return 0` of the final branch) is `none`. -/
def read (env : Env σ) (ops : ScalarOps σ) (box? : Option Box) (epoch : String) :
    Option (ReadResult σ) := do
  let atr0 ← read_attributes env
  let processor ← aget atr0 "PROCESSOR"
  let atr ← updateAtrForBox atr0 box?
  if env.ext = ".h5" ∨ env.ext = ".he5" then do
    let root ← env.h5
    let k ← aget atr "FILE_TYPE"
    if k ∈ ["interferograms", "coherence", "wrapped", "timeseries"] then do
      let node ← (root.find? (fun p => p.1 = k)).map (fun p => p.2)
      -- `epochList` is only used for a warning print when the epoch is
      -- absent; execution falls through to the dataset access regardless.
      let dset ←
        if k = "timeseries" then h5get node epoch
        else do
          let sub ← h5child node epoch
          h5get sub epoch
      pure (ReadResult.one (cropIf box? dset) atr)
    else if k ∈ ["dem", "mask", "rmse", "temporal_coherence", "velocity"] then do
      let node ← (root.find? (fun p => p.1 = k)).map (fun p => p.2)
      let dset ← h5get node k
      pure (ReadResult.one (cropIf box? dset) atr)
    else none
  else if env.ext ∈ [".jpeg", ".jpg", ".png", ".ras", ".bmp"] then do
    -- the attributes are re-read from `File + '.rsc'`, discarding `atr`
    let rows ← env.rsc
    let atr2 ← read_roipac_rsc rows
    -- `Image.crop` pads outside the image; for in-bounds boxes it equals
    -- the slice used here.
    pure (ReadResult.one (cropIf box? env.img) atr2)
  else if processor = "isce" then do
    let (data, atr1) ←
      if env.ext = ".flat" then
        match ← read_complex_float32 env ops 0 with
        | .ap _amp pha a => pure (pha, a)
        | .raw _ _ => none
      else if env.ext = ".cor" then read_real_float32 env
      else if env.ext = ".slc" then
        match ← read_complex_float32 env ops 0 with
        | .ap amp _pha a => pure (amp, a)
        | .raw _ _ => none
      else none
    pure (ReadResult.one (cropIf box? data) atr1)
  else if processor = "roipac" ∨ processor = "gamma" then
    if env.ext ∈ [".unw", ".cor", ".hgt"] then do
      let (_amp, pha, atr1) ← read_float32 env box?
      pure (ReadResult.one pha atr1)
    else if env.ext = ".dem" then do
      let (dem, atr1) ← read_real_int16 env
      pure (ReadResult.one (cropIf box? dem) atr1)
    else if env.ext = ".int" then do
      match ← read_complex_float32 env ops 0 with
      | .ap _amp pha atr1 => pure (ReadResult.one (cropIf box? pha) atr1)
      | .raw _ _ => none
    else if env.ext = ".trans" then do
      let (rg, az, atr1) ← read_float32 env box?
      pure (ReadResult.two rg az atr1)
    else if env.ext = ".mli" then do
      let (data, atr1) ← read_real_float32 env
      pure (ReadResult.one (cropIf box? data) atr1)
    else if env.ext = ".slc" then do
      let (data, atr1) ← read_complex_int16 env ops box?
      pure (ReadResult.one data atr1)
    else none
  else none

/-! ## Shape predicates and the container well-formedness used by theorems -/

/-- The matrix has `l` rows of `w` elements each. -/
def matShaped (m : Mat σ) (l w : Nat) : Prop :=
  m.length = l ∧ ∀ row ∈ m, row.length = w

instance (m : Mat σ) (l w : Nat) : Decidable (matShaped m l w) := by
  unfold matShaped; infer_instance

/-- The datasets directly carried by a node. -/
def nodeMats : H5Node σ → List (Mat σ)
  | .dset _ m => [m]
  | .grp _ _ => []

/-- Every dataset reachable within three levels of the container root — the
deepest access the dispatcher performs. -/
def h5Mats3 (root : List (String × H5Node σ)) : List (Mat σ) :=
  root.flatMap (fun p =>
    nodeMats p.2 ++ p.2.children.flatMap (fun q =>
      nodeMats q.2 ++ q.2.children.flatMap (fun t => nodeMats t.2)))

/-! ## Basic lemmas about the dictionary model -/

theorem aget_cons_pos (p : String × String) (t : AttrMap) (k : String) (h : p.1 = k) :
    aget (p :: t) k = some p.2 := by
  unfold aget
  rw [List.find?_cons_of_pos _ (by simp [h])]
  rfl

theorem aget_cons_neg (p : String × String) (t : AttrMap) (k : String) (h : ¬ p.1 = k) :
    aget (p :: t) k = aget t k := by
  unfold aget
  rw [List.find?_cons_of_neg _ (by simp [h])]

theorem aget_aset_self (m : AttrMap) (k v : String) : aget (aset m k v) k = some v := by
  induction m with
  | nil => simp [aset, aget_cons_pos]
  | cons p t ih =>
      by_cases hp : p.1 = k
      · simp [aset, hp, aget_cons_pos]
      · rw [aset, if_neg hp, aget_cons_neg _ _ _ hp]
        exact ih

theorem aget_aset_ne (m : AttrMap) (k v k' : String) (h : k' ≠ k) :
    aget (aset m k v) k' = aget m k' := by
  induction m with
  | nil =>
      rw [aset, aget_cons_neg _ _ _ (fun hc => h hc.symm)]
  | cons p t ih =>
      by_cases hp : p.1 = k
      · rw [aset, if_pos hp, aget_cons_neg _ _ _ (fun hc => h hc.symm),
          aget_cons_neg _ _ _ (by rw [hp]; exact fun hc => h hc.symm)]
      · rw [aset, if_neg hp]
        by_cases hq : p.1 = k'
        · rw [aget_cons_pos _ _ _ hq, aget_cons_pos _ _ _ hq]
        · rw [aget_cons_neg _ _ _ hq, aget_cons_neg _ _ _ hq]
          exact ih

/-! ## Basic lemmas about reshaping and slicing -/

theorem chunkRows_length (cols r : Nat) (d : List σ) :
    (chunkRows cols r d).length = r := by
  induction r generalizing d with
  | zero => rfl
  | succ n ih => simp [chunkRows, ih]

theorem chunkRows_rowlength (cols r : Nat) (d : List σ) (h : d.length = r * cols) :
    ∀ row ∈ chunkRows cols r d, row.length = cols := by
  induction r generalizing d with
  | zero => intro row hrow; simp [chunkRows] at hrow
  | succ n ih =>
      intro row hrow
      simp only [chunkRows, List.mem_cons] at hrow
      rcases hrow with h1 | h2
      · subst h1
        have : cols ≤ d.length := by
          rw [h, Nat.succ_mul]; exact Nat.le_add_left _ _
        simp [List.length_take, Nat.min_eq_left this]
      · exact ih (d.drop cols) (by simp [List.length_drop, h, Nat.succ_mul]) row h2

theorem chunkRows_shaped (cols r : Nat) (d : List σ) (h : d.length = r * cols) :
    matShaped (chunkRows cols r d) r cols :=
  ⟨chunkRows_length cols r d, chunkRows_rowlength cols r d h⟩

theorem chunkRows_getElem? (cols r : Nat) (d : List σ) (i j : Nat)
    (hi : i < r) (hj : j < cols) :
    ((chunkRows cols r d)[i]?.bind (fun row => row[j]?)) = d[i * cols + j]? := by
  induction r generalizing d i with
  | zero => omega
  | succ n ih =>
      cases i with
      | zero =>
          simp only [chunkRows, List.getElem?_cons_zero, Option.some_bind, Nat.zero_mul,
            Nat.zero_add]
          exact List.getElem?_take_of_lt hj
      | succ m =>
          simp only [chunkRows, List.getElem?_cons_succ]
          rw [ih (d.drop cols) m (Nat.lt_of_succ_lt_succ hi)]
          rw [List.getElem?_drop]
          congr 1
          ring

theorem crop2_full (m : Mat σ) (l w : Nat) (h : matShaped m l w) :
    crop2 m 0 0 w l = m := by
  obtain ⟨hl, hw⟩ := h
  unfold crop2 pySlice
  rw [List.drop_zero, List.take_of_length_le (le_of_eq hl)]
  conv_rhs => rw [← List.map_id m]
  apply List.map_congr_left
  intro row hrow
  simp [List.take_of_length_le (le_of_eq (hw row hrow)), List.drop_zero]

theorem fromfileReshape_shaped (s : List σ) (n r c : Nat) (m : Mat σ)
    (h : fromfileReshape s n r c = some m) : matShaped m r c := by
  unfold fromfileReshape at h
  split at h
  · cases h; exact chunkRows_shaped _ _ _ (by assumption)
  · cases h

theorem fromfileReshape_take (s₁ s₂ : List σ) (n r c : Nat)
    (h : s₁.take n = s₂.take n) : fromfileReshape s₁ n r c = fromfileReshape s₂ n r c := by
  unfold fromfileReshape
  rw [h]

theorem fromfileReshape_eq_some (s : List σ) (n r c : Nat)
    (hn : n = r * c) (hs : n ≤ s.length) :
    fromfileReshape s n r c = some (chunkRows c r (s.take n)) := by
  unfold fromfileReshape
  rw [if_pos]
  rw [List.length_take, Nat.min_eq_left hs, hn]

theorem fromfileReshape_inv (s : List σ) (n r c : Nat) (m : Mat σ)
    (h : fromfileReshape s n r c = some m) :
    (s.take n).length = r * c ∧ m = chunkRows c r (s.take n) := by
  unfold fromfileReshape at h
  split at h
  · exact ⟨by assumption, (Option.some_inj.mp h).symm⟩
  · cases h

/-! ## Splitting off one line -/

theorem pyLinesAux_newline (a : List Char) (r acc : List Char) (h : '\n' ∉ a) :
    pyLinesAux (a ++ '\n' :: r) acc = (acc.reverse ++ a) :: pyLinesAux r [] := by
  induction a generalizing acc with
  | nil => simp [pyLinesAux]
  | cons c a' ih =>
      have hc : ¬ (c = '\n') := fun hc => h (hc ▸ List.mem_cons_self c a')
      have ha' : '\n' ∉ a' := fun hm => h (List.mem_cons_of_mem c hm)
      simp only [List.cons_append, pyLinesAux, if_neg hc, List.append_eq]
      rw [ih (c :: acc) ha']
      simp

theorem pyLines_cons_line (a r : List Char) (h : '\n' ∉ a) :
    pyLines (a ++ '\n' :: r) = a :: pyLines r := by
  unfold pyLines
  rw [pyLinesAux_newline a r [] h]
  simp

/-! ## Example sidecar contents -/

/-- The spec's example positional-parameter file. -/
def exParContent : List Char := "dummy\ndummy\nrange_samples: 100\nazimuth_lines: 50\n".data

/-- The example file with a `%` comment line and a `#` value suffix added. -/
def exParExtra : List Char :=
  "dummy\ndummy\nrange_samples: 100\n%note 5\nfoo: 7#c\nazimuth_lines: 50\n".data

/-- The example file with the `range_samples:` line removed. -/
def exParNoRange : List Char := "dummy\ndummy\nazimuth_lines: 50\n".data

/-- The example file with the `azimuth_lines:` line removed. -/
def exParNoAzimuth : List Char := "dummy\ndummy\nrange_samples: 100\n".data

/-- C4, counterexample.  The claim says the parser stores token[0] *with any
trailing colon stripped* as the key; on the spec's own example file the
stored key is `"range_samples:"` (colon retained, `l[0].strip()` removes
whitespace only) and no key `"range_samples"` exists — with the colon
stripped, the synthesized-`WIDTH` lookup of `par_dict['range_samples:']`
could not even succeed. -/
theorem read_gamma_par_keeps_colon_counterexample :
    (read_gamma_par exParContent).map
        (fun m => (aget m "range_samples", aget m "range_samples:"))
      = some (none, some "100") := by decide

/-- C4, amended: the positional-parameter parser skips the first two lines
(their content is irrelevant), splits remaining non-comment lines on
whitespace, stores token[0] (whitespace-stripped, trailing colon retained) as
the key and token[1] with any `#`-comment suffix stripped as the value,
synthesizes `WIDTH` from `range_samples:` and `FILE_LENGTH` from
`azimuth_lines:`, yields `WIDTH="100"`/`FILE_LENGTH="50"` on the spec's
example file, and fails when either source key is absent. -/
theorem read_gamma_par_c4_amended :
    (∀ (a b a' b' rest : List Char), '\n' ∉ a → '\n' ∉ b → '\n' ∉ a' → '\n' ∉ b' →
        read_gamma_par (a ++ '\n' :: (b ++ '\n' :: rest))
          = read_gamma_par (a' ++ '\n' :: (b' ++ '\n' :: rest))) ∧
    (read_gamma_par exParContent).map
        (fun m => (aget m "WIDTH", aget m "FILE_LENGTH", aget m "range_samples:"))
      = some (some "100", some "50", some "100") ∧
    (read_gamma_par exParExtra).map
        (fun m => (aget m "foo:", aget m "%note", aget m "WIDTH"))
      = some (some "7", none, some "100") ∧
    read_gamma_par exParNoRange = none ∧
    read_gamma_par exParNoAzimuth = none := by
  refine ⟨?_, by decide, by decide, by decide, by decide⟩
  intro a b a' b' rest ha hb ha' hb'
  unfold read_gamma_par
  rw [pyLines_cons_line a _ ha, pyLines_cons_line b _ hb,
    pyLines_cons_line a' _ ha', pyLines_cons_line b' _ hb']

/-- C4, witness for the amended theorem: the header-independence conjunct
applied to two concrete pairs of header lines over the example body. -/
theorem read_gamma_par_c4_amended_witness :
    read_gamma_par ("xx".data ++ '\n' :: ("yy".data ++ '\n' :: "range_samples: 8\nazimuth_lines: 9\n".data))
      = read_gamma_par ("dummy".data ++ '\n' :: ("dummy".data ++ '\n' :: "range_samples: 8\nazimuth_lines: 9\n".data)) :=
  read_gamma_par_c4_amended.1 "xx".data "yy".data "dummy".data "dummy".data
    "range_samples: 8\nazimuth_lines: 9\n".data
    (by decide) (by decide) (by decide) (by decide)

/-! ## Concrete environments used by witnesses and counterexamples -/

/-- Dummy scalar operations over `ℤ`, for concrete evaluations of the
decoders (the dispatcher-level claims hold for every `ScalarOps`). -/
def intOps : ScalarOps ℤ := ⟨fun z => z, fun z => z, fun a b => a + b⟩

/-- A ROI_PAC `.unw` file of 2 lines by 2 samples with its `.rsc` sidecar. -/
def envUnw : Env ℤ :=
  { ext := ".unw", fileExists := true, h5 := none,
    rsc := some [["WIDTH", "2"], ["FILE_LENGTH", "2"]],
    xml := none, par := none, stemPar := none,
    stream := [1, 2, 3, 4, 5, 6, 7, 8], img := [[0, 0], [0, 0]] }

/-- The attribute mapping `read_attributes` yields on `envUnw`. -/
def atrUnw : AttrMap :=
  [("WIDTH", "2"), ("FILE_LENGTH", "2"), ("PROCESSOR", "roipac"),
   ("FILE_TYPE", ".unw"), ("UNIT", "radian")]

/-- A PySAR `velocity.h5` container, 2 lines by 2 samples. -/
def envVel : Env ℤ :=
  { ext := ".h5", fileExists := true,
    h5 := some [("velocity", .grp [("WIDTH", "2"), ("FILE_LENGTH", "2")]
      [("velocity", .dset [] [[1, 2], [3, 4]])])],
    rsc := none, xml := none, par := none, stemPar := none, stream := [], img := [] }

/-- The attribute mapping `read_attributes` yields on `envVel`. -/
def atrVel : AttrMap :=
  [("WIDTH", "2"), ("FILE_LENGTH", "2"), ("PROCESSOR", "pysar"),
   ("FILE_TYPE", "velocity"), ("UNIT", "m/yr")]

/-- A PySAR `timeseries.h5` container with a single date. -/
def envTs : Env ℤ :=
  { ext := ".h5", fileExists := true,
    h5 := some [("timeseries", .grp [("WIDTH", "1"), ("FILE_LENGTH", "1")]
      [("20100101", .dset [] [[7]])])],
    rsc := none, xml := none, par := none, stemPar := none, stream := [], img := [] }

/-- The attribute mapping `read_attributes` yields on `envTs`. -/
def atrTs : AttrMap :=
  [("WIDTH", "1"), ("FILE_LENGTH", "1"), ("PROCESSOR", "pysar"),
   ("FILE_TYPE", "timeseries"), ("ref_date", "20100101"), ("UNIT", "m")]

/-! ## C7 and C9: the UNIT normalization -/

/-- C7: every successful `read_attributes` call returns a mapping whose
`UNIT` is derived from its `FILE_TYPE` by the fixed table:
interferogram/wrapped/fringe types give radians, time-series/elevation types
give meters, velocity gives meters/year, and every other file type gives the
dimensionless unit. -/
theorem read_attributes_unit_table (env : Env σ) (atr : AttrMap)
    (h : read_attributes env = some atr) :
    ∃ ft, aget atr "FILE_TYPE" = some ft ∧
      aget atr "UNIT" = some (unitOf ft) ∧
      (ft ∈ ["interferograms", "wrapped", ".unw", ".int", ".flat"] →
        aget atr "UNIT" = some "radian") ∧
      (ft ∈ ["timeseries", "dem", ".dem", ".hgt"] → aget atr "UNIT" = some "m") ∧
      (ft = "velocity" → aget atr "UNIT" = some "m/yr") ∧
      (ft ∉ ["interferograms", "wrapped", ".unw", ".int", ".flat"] →
       ft ∉ ["timeseries", "dem", ".dem", ".hgt"] → ft ∉ ["velocity"] →
        aget atr "UNIT" = some "1") := by
  rw [read_attributes, Option.bind_eq_some] at h
  obtain ⟨atr0, _hb, hu⟩ := h
  rw [applyUnit, Option.map_eq_some'] at hu
  obtain ⟨ft, hft, rfl⟩ := hu
  have hUnit : aget (aset atr0 "UNIT" (unitOf ft)) "UNIT" = some (unitOf ft) :=
    aget_aset_self _ _ _
  have hft' : aget (aset atr0 "UNIT" (unitOf ft)) "FILE_TYPE" = some ft := by
    rw [aget_aset_ne _ _ _ _ (by decide)]; exact hft
  refine ⟨ft, hft', hUnit, ?_, ?_, ?_, ?_⟩
  · intro hm; rw [hUnit, unitOf, if_pos hm]
  · intro hm
    have hne : ft ∉ ["interferograms", "wrapped", ".unw", ".int", ".flat"] := by
      simp only [List.mem_cons, List.not_mem_nil, or_false] at hm ⊢
      rcases hm with rfl | rfl | rfl | rfl <;> decide
    rw [hUnit, unitOf, if_neg hne, if_pos hm]
  · intro hm
    subst hm
    rw [hUnit]; decide
  · intro h1 h2 h3
    rw [hUnit, unitOf, if_neg h1, if_neg h2, if_neg h3]

/-- C7, witness: the table evaluated through a full `read_attributes` call on
the concrete `.unw` environment. -/
theorem read_attributes_unit_table_witness :
    ∃ ft, aget atrUnw "FILE_TYPE" = some ft ∧
      aget atrUnw "UNIT" = some (unitOf ft) ∧
      (ft ∈ ["interferograms", "wrapped", ".unw", ".int", ".flat"] →
        aget atrUnw "UNIT" = some "radian") ∧
      (ft ∈ ["timeseries", "dem", ".dem", ".hgt"] → aget atrUnw "UNIT" = some "m") ∧
      (ft = "velocity" → aget atrUnw "UNIT" = some "m/yr") ∧
      (ft ∉ ["interferograms", "wrapped", ".unw", ".int", ".flat"] →
       ft ∉ ["timeseries", "dem", ".dem", ".hgt"] → ft ∉ ["velocity"] →
        aget atrUnw "UNIT" = some "1") :=
  read_attributes_unit_table envUnw atrUnw (by decide)

/-- C9: `UNIT` in a normalized mapping is a function of `FILE_TYPE` alone.
`read_attributes` is literally the branch parse followed by the `UNIT`
assignment; injecting an arbitrary `UNIT` value into the parsed attributes
before that assignment never changes the resulting `UNIT`; and any successful
assignment produces `UNIT = unitOf FILE_TYPE`, so no sidecar-supplied `UNIT`
passes through. -/
theorem read_attributes_unit_overwritten {σ : Type} :
    (∀ (env : Env σ), read_attributes env = (branchAttrs env).bind applyUnit) ∧
    (∀ (atr : AttrMap) (u : String),
        (applyUnit (aset atr "UNIT" u)).bind (fun a => aget a "UNIT")
          = (applyUnit atr).bind (fun a => aget a "UNIT")) ∧
    (∀ (atr a : AttrMap), applyUnit atr = some a →
        ∃ ft, aget atr "FILE_TYPE" = some ft ∧ aget a "UNIT" = some (unitOf ft)) := by
  refine ⟨fun _ => rfl, ?_, ?_⟩
  · intro atr u
    unfold applyUnit
    rw [aget_aset_ne _ _ _ _ (by decide)]
    cases hft : aget atr "FILE_TYPE" with
    | none => rfl
    | some ft =>
        simp only [Option.map_some', Option.some_bind]
        rw [aget_aset_self, aget_aset_self]
  · intro atr a h
    rw [applyUnit, Option.map_eq_some'] at h
    obtain ⟨ft, hft, rfl⟩ := h
    exact ⟨ft, hft, aget_aset_self _ _ _⟩

/-- C9, witness: injecting a bogus sidecar `UNIT` into the parsed attributes
of the `.unw` example leaves the normalized `UNIT` unchanged. -/
theorem read_attributes_unit_overwritten_witness :
    (applyUnit (aset [("FILE_TYPE", ".unw")] "UNIT" "bogus")).bind (fun a => aget a "UNIT")
      = (applyUnit [("FILE_TYPE", ".unw")]).bind (fun a => aget a "UNIT") :=
  (read_attributes_unit_overwritten (σ := ℤ)).2.1 [("FILE_TYPE", ".unw")] "bogus"

/-! ## C10: the windowed decoders read only a prefix of the file -/

/-- Everything `read_attributes` observes is independent of the raster
file's own byte stream. -/
theorem read_attributes_stream_irrel (env : Env σ) (s : List σ) :
    read_attributes { env with stream := s } = read_attributes env := rfl

/-- C10: invoked with a window `(x0, y0, x1, y1)`, the side-by-side decoder
`read_float32` and the interleaved-int16-complex decoder `read_complex_int16`
depend only on the first `y1 * 2 * WIDTH` elements of the file: any two
streams agreeing on that prefix decode to the same result, so elements at or
beyond row `y1` never influence the output. -/
theorem windowed_decoders_prefix_only (env : Env σ) (ops : ScalarOps σ) (s₂ : List σ)
    (b : Box) (atr : AttrMap) (w : Nat)
    (hatr : read_attributes env = some atr)
    (hw : pyDim atr "WIDTH" = some w)
    (hpre : env.stream.take (b.y1 * (2 * w)) = s₂.take (b.y1 * (2 * w))) :
    read_float32 env (some b) = read_float32 { env with stream := s₂ } (some b) ∧
    read_complex_int16 env ops (some b)
      = read_complex_int16 { env with stream := s₂ } ops (some b) := by
  constructor
  · unfold read_float32
    rw [read_attributes_stream_irrel env s₂, hatr]
    simp only [Option.bind_eq_bind, Option.some_bind]
    rw [hw]
    simp only [Option.some_bind]
    cases hl : pyDim atr "FILE_LENGTH" with
    | none => rfl
    | some l =>
        simp only [Option.some_bind, Option.getD_some]
        rw [fromfileReshape_take env.stream s₂ _ _ _ hpre]
  · unfold read_complex_int16
    rw [read_attributes_stream_irrel env s₂, hatr]
    simp only [Option.bind_eq_bind, Option.some_bind]
    rw [hw]
    simp only [Option.some_bind]
    cases hl : pyDim atr "FILE_LENGTH" with
    | none => rfl
    | some l =>
        simp only [Option.some_bind, Option.getD_some]
        rw [fromfileReshape_take env.stream s₂ _ _ _ hpre]

/-! ## C6: the interleaved-complex decoder -/

theorem mapMat_getElem? (f : σ → σ) (m : Mat σ) (i j : Nat) :
    ((mapMat f m)[i]?.bind (fun row => row[j]?))
      = (m[i]?.bind (fun row => row[j]?)).map f := by
  unfold mapMat
  rw [List.getElem?_map]
  cases m[i]? with
  | none => rfl
  | some row => simp [List.getElem?_map]

/-- A ROI_PAC `.int` interferogram of one pixel with value `3 + 4i`. -/
def envIntC : Env ℂ :=
  { ext := ".int", fileExists := true, h5 := none,
    rsc := some [["WIDTH", "1"], ["FILE_LENGTH", "1"]],
    xml := none, par := none, stemPar := none,
    stream := [⟨3, 4⟩], img := [] }

/-- The attribute mapping `read_attributes` yields on `envIntC`. -/
def atrIntC : AttrMap :=
  [("WIDTH", "1"), ("FILE_LENGTH", "1"), ("PROCESSOR", "roipac"),
   ("FILE_TYPE", ".int"), ("UNIT", "radian")]

/-- C6: decoding an interleaved-complex input with amplitude/phase output,
every sample of the amplitude plane is `hypot(re, im)` — the complex modulus
— and every sample of the phase plane is `atan2(im, re)` — the principal
argument — of the corresponding decoded complex sample (the `i*w + j`-th
element of the file); with any other flag the decoded complex plane is
returned unmodified. -/
theorem read_complex_float32_hypot_atan2 (env : Env ℂ) (i j w l : Nat)
    (amp pha : Mat ℂ) (atr : AttrMap)
    (h : read_complex_float32 env complexOps 0 = some (.ap amp pha atr))
    (hw : pyDim atr "WIDTH" = some w)
    (hl : pyDim atr "FILE_LENGTH" = some l)
    (hi : i < l) (hj : j < w) :
    (amp[i]?.bind (fun row => row[j]?))
        = (env.stream[i * w + j]?).map (fun z => (Complex.abs z : ℂ)) ∧
    (pha[i]?.bind (fun row => row[j]?))
        = (env.stream[i * w + j]?).map (fun z => ((z.arg : ℝ) : ℂ)) ∧
    (∀ (data : Mat ℂ) (atr1 : AttrMap),
        read_complex_float32 env complexOps 1 = some (.raw data atr1) →
        (data[i]?.bind (fun row => row[j]?)) = env.stream[i * w + j]?) := by
  have hlt : i * w + j < l * w := by
    have h1 : i * w + j < (i + 1) * w := by rw [Nat.succ_mul]; omega
    exact lt_of_lt_of_le h1 (Nat.mul_le_mul_right w hi)
  unfold read_complex_float32 at h
  simp only [Option.bind_eq_bind, Option.bind_eq_some, reduceIte, Option.pure_def,
    Option.some_inj] at h
  obtain ⟨a, ha, w', hw', l', hl', data, hdata, hout⟩ := h
  simp only [CF32Out.ap.injEq] at hout
  obtain ⟨hamp, hpha, rfl⟩ := hout
  rw [hw] at hw'
  rw [hl] at hl'
  cases hw'
  cases hl'
  obtain ⟨_hlen, rfl⟩ := fromfileReshape_inv _ _ _ _ _ hdata
  refine ⟨?_, ?_, ?_⟩
  · rw [← hamp, mapMat_getElem?, chunkRows_getElem? w l _ i j hi hj,
      List.getElem?_take_of_lt hlt]
    rfl
  · rw [← hpha, mapMat_getElem?, chunkRows_getElem? w l _ i j hi hj,
      List.getElem?_take_of_lt hlt]
    rfl
  · intro data1 atr1 h1
    unfold read_complex_float32 at h1
    simp only [Option.bind_eq_bind, Option.bind_eq_some, Option.pure_def,
      Option.some_inj] at h1
    obtain ⟨a1, ha1, w1, hw1, l1, hl1, data2, hdata2, hout1⟩ := h1
    rw [if_neg (by decide : ¬ (1 = 0)), Option.some_inj] at hout1
    injection hout1 with hdd haa
    subst haa
    rw [ha] at ha1
    cases ha1
    rw [hw] at hw1
    rw [hl] at hl1
    cases hw1
    cases hl1
    obtain ⟨_hlen1, rfl⟩ := fromfileReshape_inv _ _ _ _ _ hdata2
    rw [← hdd, chunkRows_getElem? w l _ i j hi hj, List.getElem?_take_of_lt hlt]

/-- C6, witness: the constant-`3+4i` one-pixel file decodes to amplitude
`|3+4i|` and phase `arg (3+4i)` at pixel `(0,0)`. -/
theorem read_complex_float32_hypot_atan2_witness :
    ∃ (amp pha : Mat ℂ) (atr : AttrMap),
      read_complex_float32 envIntC complexOps 0 = some (.ap amp pha atr) ∧
      (amp[0]?.bind (fun row => row[0]?))
          = (envIntC.stream[0 * 1 + 0]?).map (fun z => (Complex.abs z : ℂ)) ∧
      (pha[0]?.bind (fun row => row[0]?))
          = (envIntC.stream[0 * 1 + 0]?).map (fun z => ((z.arg : ℝ) : ℂ)) := by
  refine ⟨_, _, _, rfl, ?_, ?_⟩
  · exact (read_complex_float32_hypot_atan2 envIntC 0 0 1 1 _ _ atrIntC rfl
      (by decide) (by decide) (by decide) (by decide)).1
  · exact (read_complex_float32_hypot_atan2 envIntC 0 0 1 1 _ _ atrIntC rfl
      (by decide) (by decide) (by decide) (by decide)).2.1

/-! ## Slice length lemmas -/

theorem length_pySlice (l : List α) (a b : Nat) :
    (pySlice l a b).length = min b l.length - a := by
  unfold pySlice
  rw [List.length_drop, List.length_take]

theorem mem_pySlice (l : List α) (a b : Nat) (x : α) (h : x ∈ pySlice l a b) : x ∈ l :=
  List.mem_of_mem_take (List.mem_of_mem_drop h)

/-! ## C3: no window validation exists -/

/-- C3, counterexample.  The claim says a window with `x1 > WIDTH` fails with
an `InvalidWindow` error rather than returning an array.  On a 2×2 `.unw`
file (row stride `2*WIDTH = 4`), the window `(0,0,3,2)` has `x1 = 3 > 2 =
WIDTH`, yet `read_float32` happily returns an array — and its amplitude
plane `[[1,2,3],[5,6,7]]` silently contains column 2, which lies in the
phase half of each row. -/
theorem read_float32_invalid_window_counterexample :
    ((read_attributes envUnw).bind (fun a => pyDim a "WIDTH")) = some 2 ∧
    (read_float32 envUnw (some ⟨0, 0, 3, 2⟩)).map (fun r => r.1)
      = some [[1, 2, 3], [5, 6, 7]] := by decide

/-- C3, amended: no window validation is performed anywhere in the decode
path.  A window whose `x1` exceeds `WIDTH` does not fail: provided the file
holds the `y1` full rows the decoder asks for, `read_float32` returns planes,
and the amplitude slice clamps only at the doubled row width `2*WIDTH`, so
its rows have `min x1 (2*WIDTH) - x0` columns and (for `x1 > WIDTH`) extend
into the phase half of the row. -/
theorem read_float32_no_window_validation (env : Env σ) (b : Box) (atr : AttrMap)
    (w l : Nat)
    (hatr : read_attributes env = some atr)
    (hw : pyDim atr "WIDTH" = some w)
    (hl : pyDim atr "FILE_LENGTH" = some l)
    (_hx : w < b.x1)
    (hs : b.y1 * (2 * w) ≤ env.stream.length) :
    ∃ amp pha, read_float32 env (some b) = some (amp, pha, atr) ∧
      amp.length = b.y1 - b.y0 ∧
      (∀ row ∈ amp, row.length = min b.x1 (2 * w) - b.x0) := by
  have hdata : matShaped (chunkRows (2 * w) b.y1 (env.stream.take (b.y1 * (2 * w))))
      b.y1 (2 * w) :=
    chunkRows_shaped _ _ _ (by rw [List.length_take, Nat.min_eq_left hs])
  unfold read_float32
  rw [hatr]
  simp only [Option.bind_eq_bind, Option.some_bind]
  rw [hw]
  simp only [Option.some_bind]
  rw [hl]
  simp only [Option.some_bind, Option.getD_some]
  rw [fromfileReshape_eq_some env.stream _ _ _ rfl hs]
  simp only [Option.some_bind, Option.pure_def]
  refine ⟨_, _, rfl, ?_, ?_⟩
  · simp only [crop2, List.length_map, length_pySlice, hdata.1, Nat.min_self]
  · intro row hrow
    simp only [crop2, List.mem_map] at hrow
    obtain ⟨r, hr, rfl⟩ := hrow
    rw [length_pySlice, hdata.2 r (mem_pySlice _ _ _ _ hr)]

/-- C3, witness for the amended theorem: the out-of-range window `(0,0,3,2)`
on the 2×2 `.unw` file returns amplitude rows of `min 3 4 - 0 = 3` columns. -/
theorem read_float32_no_window_validation_witness :
    ∃ amp pha, read_float32 envUnw (some ⟨0, 0, 3, 2⟩) = some (amp, pha, atrUnw) ∧
      amp.length = 2 - 0 ∧
      (∀ row ∈ amp, row.length = min 3 (2 * 2) - 0) :=
  read_float32_no_window_validation envUnw ⟨0, 0, 3, 2⟩ atrUnw 2 2
    (by decide) (by decide) (by decide) (by decide) (by decide)

/-! ## C1: when are the attributes recomputed for a window? -/

/-- C1, counterexample.  The claim says that when the window does **not**
strictly reduce the read volume the attributes are recomputed, and otherwise
(strict reduction) the full-extent attributes are returned.  On the 2×2
`velocity.h5` container, the window `(0,0,1,2)` has area `2 < 4`, so per the
claim the full-extent attributes (`WIDTH = "2"`) should come back — but the
code recomputes exactly in this case and returns `WIDTH = "1"`. -/
theorem read_subset_condition_counterexample :
    read_attributes envVel = some atrVel ∧
    aget atrVel "WIDTH" = some "2" ∧
    (read envVel intOps (some ⟨0, 0, 1, 2⟩) "").map (fun r => aget r.attrs "WIDTH")
      = some (some "1") := by decide

/-- C1, amended: the attribute mapping is recomputed for the cropped extent
exactly when the window area is *strictly less* than `WIDTH × FILE_LENGTH`
(i.e. when the window strictly reduces the read volume), and kept at full
extent otherwise.  The recomputed mapping is the one returned on the
container path; the flat-binary paths (e.g. `.unw`) rebind the attributes
freshly derived by the decoder and therefore always return the full-extent
mapping. -/
theorem read_box_attrs_c1_amended {σ : Type} :
    (∀ (env : Env σ) (ops : ScalarOps σ) (b : Box) (e : String) (atr : AttrMap)
        (w l : Nat) (r : ReadResult σ),
      read_attributes env = some atr →
      pyDim atr "WIDTH" = some w →
      pyDim atr "FILE_LENGTH" = some l →
      (env.ext = ".h5" ∨ env.ext = ".he5") →
      read env ops (some b) e = some r →
      r.attrs = (if (b.x1 - b.x0) * (b.y1 - b.y0) < w * l
                 then subset_attributes atr b else atr)) ∧
    (∀ (env : Env σ) (ops : ScalarOps σ) (b : Box) (e : String) (atr : AttrMap)
        (r : ReadResult σ),
      read_attributes env = some atr →
      env.ext = ".unw" →
      read env ops (some b) e = some r →
      r.attrs = atr) := by
  constructor
  · intro env ops b e atr w l r hatr hw hl hext hr
    unfold read at hr
    simp only [Option.bind_eq_bind] at hr
    obtain ⟨atr0, ha0, hr⟩ := Option.bind_eq_some.mp hr
    rw [hatr] at ha0
    cases ha0
    obtain ⟨p, hp, hr⟩ := Option.bind_eq_some.mp hr
    obtain ⟨atr1, hup, hr⟩ := Option.bind_eq_some.mp hr
    simp only [updateAtrForBox, Option.bind_eq_bind] at hup
    obtain ⟨w', hw', hup⟩ := Option.bind_eq_some.mp hup
    obtain ⟨l', hl', hup⟩ := Option.bind_eq_some.mp hup
    rw [hw] at hw'
    cases hw'
    rw [hl] at hl'
    cases hl'
    rw [Option.pure_def, Option.some_inj] at hup
    subst hup
    rw [if_pos hext] at hr
    obtain ⟨root, hroot, hr⟩ := Option.bind_eq_some.mp hr
    obtain ⟨k, hk, hr⟩ := Option.bind_eq_some.mp hr
    split at hr
    · obtain ⟨node, hnode, hr⟩ := Option.bind_eq_some.mp hr
      split at hr
      · obtain ⟨dset, hdset, hr⟩ := Option.bind_eq_some.mp hr
        rw [Option.pure_def, Option.some_inj] at hr
        subst hr
        rfl
      · obtain ⟨sub, hsub, hr⟩ := Option.bind_eq_some.mp hr
        obtain ⟨dset, hdset, hr⟩ := Option.bind_eq_some.mp hr
        rw [Option.pure_def, Option.some_inj] at hr
        subst hr
        rfl
    · split at hr
      · obtain ⟨node, hnode, hr⟩ := Option.bind_eq_some.mp hr
        obtain ⟨dset, hdset, hr⟩ := Option.bind_eq_some.mp hr
        rw [Option.pure_def, Option.some_inj] at hr
        subst hr
        rfl
      · cases hr
  · intro env ops b e atr r hatr hext hr
    unfold read at hr
    simp only [Option.bind_eq_bind, Option.bind_eq_some] at hr
    obtain ⟨atr0, ha0, p, hp, atr1, hup, hr⟩ := hr
    rw [hatr] at ha0
    cases ha0
    rw [hext] at hr
    rw [if_neg (by decide), if_neg (by decide)] at hr
    by_cases hpi : p = "isce"
    · rw [if_pos hpi] at hr
      rw [if_neg (by decide), if_neg (by decide), if_neg (by decide)] at hr
      simp only [Option.bind_eq_bind, Option.none_bind] at hr
      cases hr
    · rw [if_neg hpi] at hr
      by_cases hpr : p = "roipac" ∨ p = "gamma"
      · rw [if_pos hpr] at hr
        rw [if_pos (by decide)] at hr
        simp only [Option.bind_eq_bind, Option.bind_eq_some, Option.pure_def,
          Option.some_inj] at hr
        obtain ⟨⟨amp, pha, atr2⟩, hf, hr⟩ := hr
        subst hr
        unfold read_float32 at hf
        simp only [Option.bind_eq_bind, Option.bind_eq_some, Option.pure_def,
          Option.some_inj] at hf
        obtain ⟨a2, ha2, w2, hw2, l2, hl2, data, hdata, hout⟩ := hf
        rw [hatr] at ha2
        cases ha2
        injection hout with h1 hout
        injection hout with h2 h3
        subst h3
        rfl
      · rw [if_neg hpr] at hr
        cases hr

/-- C1, witness for the amended theorem: on the container the strictly
smaller window `(0,0,1,2)` comes back with the recomputed mapping, and a
`.unw` read with a window returns the decoder's full-extent mapping. -/
theorem read_box_attrs_c1_amended_witness :
    (∃ r, read envVel intOps (some ⟨0, 0, 1, 2⟩) "" = some r ∧
      r.attrs = (if (1 - 0) * (2 - 0) < 2 * 2
                 then subset_attributes atrVel ⟨0, 0, 1, 2⟩ else atrVel)) ∧
    (∃ r, read envUnw intOps (some ⟨0, 0, 2, 2⟩) "" = some r ∧ r.attrs = atrUnw) := by
  constructor
  · exact ⟨_, rfl, read_box_attrs_c1_amended.1 envVel intOps ⟨0, 0, 1, 2⟩ "" atrVel 2 2 _
      (by decide) (by decide) (by decide) (by decide) rfl⟩
  · exact ⟨_, rfl, read_box_attrs_c1_amended.2 envUnw intOps ⟨0, 0, 2, 2⟩ "" atrUnw _
      (by decide) (by decide) rfl⟩

/-! ## C8: a missing epoch in a multi-epoch container group -/

/-- The box update of lines 407-412 touches only `WIDTH` and `FILE_LENGTH`. -/
theorem updateAtrForBox_aget (atr atr1 : AttrMap) (box? : Option Box) (key : String)
    (hk1 : key ≠ "WIDTH") (hk2 : key ≠ "FILE_LENGTH")
    (h : updateAtrForBox atr box? = some atr1) :
    aget atr1 key = aget atr key := by
  cases box? with
  | none =>
      rw [updateAtrForBox, Option.some_inj] at h
      subst h
      rfl
  | some b =>
      simp only [updateAtrForBox, Option.bind_eq_bind] at h
      obtain ⟨w, hw, h⟩ := Option.bind_eq_some.mp h
      obtain ⟨l, hl, h⟩ := Option.bind_eq_some.mp h
      rw [Option.pure_def, Option.some_inj] at h
      subst h
      split
      · rw [subset_attributes, aget_aset_ne _ _ _ _ hk2, aget_aset_ne _ _ _ _ hk1]
      · rfl

/-- `node.get(name)`/`node[name]` find nothing when `name` is not among the
children. -/
theorem h5child_eq_none (n : H5Node σ) (name : String)
    (h : name ∉ n.children.map (fun p => p.1)) : h5child n name = none := by
  unfold h5child
  rw [List.find?_eq_none.mpr]
  · rfl
  · intro p hp
    simp only [decide_eq_true_eq]
    intro hpe
    exact h (List.mem_map.mpr ⟨p, hp, hpe⟩)

theorem h5get_eq_none (n : H5Node σ) (name : String)
    (h : name ∉ n.children.map (fun p => p.1)) : h5get n name = none := by
  unfold h5get
  rw [h5child_eq_none n name h]

/-- C8: reading a multi-epoch container group (interferograms, coherence,
wrapped, timeseries) with an epoch label absent from the group's member list
fails — `read` produces no data array and no partially populated result.
(In the original the failure mode is an uncaught `KeyError`/`TypeError`
after a diagnostic print; either way nothing is returned.) -/
theorem read_missing_epoch_fails (env : Env σ) (ops : ScalarOps σ) (box? : Option Box)
    (e : String) (atr : AttrMap) (k : String) (root : List (String × H5Node σ))
    (node : H5Node σ)
    (hext : env.ext = ".h5" ∨ env.ext = ".he5")
    (hatr : read_attributes env = some atr)
    (hk : aget atr "FILE_TYPE" = some k)
    (hmulti : k ∈ ["interferograms", "coherence", "wrapped", "timeseries"])
    (hroot : env.h5 = some root)
    (hnode : (root.find? (fun p => p.1 = k)).map (fun p => p.2) = some node)
    (habsent : e ∉ node.children.map (fun p => p.1)) :
    read env ops box? e = none := by
  unfold read
  simp only [Option.bind_eq_bind]
  rw [hatr, Option.some_bind]
  cases hp : aget atr "PROCESSOR" with
  | none => rw [Option.none_bind]
  | some p =>
      rw [Option.some_bind]
      cases hup : updateAtrForBox atr box? with
      | none => rw [Option.none_bind]
      | some atr1 =>
          rw [Option.some_bind, if_pos hext, hroot, Option.some_bind]
          have hk1 : aget atr1 "FILE_TYPE" = some k :=
            (updateAtrForBox_aget atr atr1 box? "FILE_TYPE" (by decide) (by decide) hup).trans hk
          rw [hk1, Option.some_bind, if_pos hmulti, hnode, Option.some_bind]
          split
          · rw [h5get_eq_none node e habsent, Option.none_bind]
          · rw [h5child_eq_none node e habsent, Option.none_bind]

/-- C8, witness: requesting date `20100102` from a timeseries container whose
only member is `20100101` returns nothing. -/
theorem read_missing_epoch_fails_witness :
    read envTs intOps none "20100102" = none :=
  read_missing_epoch_fails envTs intOps none "20100102" atrTs "timeseries"
    [("timeseries", .grp [("WIDTH", "1"), ("FILE_LENGTH", "1")]
      [("20100101", .dset [] [[7]])])]
    (.grp [("WIDTH", "1"), ("FILE_LENGTH", "1")] [("20100101", .dset [] [[7]])])
    (by decide) (by decide) (by decide) (by decide) rfl rfl (by decide)

/-- C10, witness: changing the file beyond the windowed prefix (a ninth
element) leaves both decoders' output unchanged on a `y1 = 1` window. -/
theorem windowed_decoders_prefix_only_witness :
    read_float32 envUnw (some ⟨0, 0, 2, 1⟩)
      = read_float32 { envUnw with stream := [1, 2, 3, 4, 50, 60, 70, 80, 90] } (some ⟨0, 0, 2, 1⟩) ∧
    read_complex_int16 envUnw intOps (some ⟨0, 0, 2, 1⟩)
      = read_complex_int16 { envUnw with stream := [1, 2, 3, 4, 50, 60, 70, 80, 90] } intOps
          (some ⟨0, 0, 2, 1⟩) :=
  windowed_decoders_prefix_only envUnw intOps [1, 2, 3, 4, 50, 60, 70, 80, 90]
    ⟨0, 0, 2, 1⟩ atrUnw 2 (by decide) (by decide) (by decide)

/-! ## C2: which reads return two planes? -/

/-- Output semantics of a decode strategy. -/
inductive OutputKind where
  | real
  | amplitude_phase
  | complex
deriving DecidableEq

/-- Modelled from the spec: the Binary Layout Registry's `output_kind` column
(spec section 4.3), keyed by `(PROCESSOR, extension)` — the code has no such
explicit table, so this follows the spec's words (flight-software = `isce`,
proprietary chain = `roipac`, commercial processor = `gamma`), for comparison
with the dispatcher's actual plane count. -/
def specOutputKind (processor ext : String) : Option OutputKind :=
  if processor = "isce" ∧ ext = ".flat" then some .complex
  else if processor = "isce" ∧ ext = ".cor" then some .real
  else if processor = "isce" ∧ ext = ".slc" then some .complex
  else if (processor = "roipac" ∨ processor = "gamma") ∧ ext ∈ [".unw", ".cor", ".hgt"] then
    some .amplitude_phase
  else if (processor = "roipac" ∨ processor = "gamma") ∧ ext = ".dem" then some .real
  else if (processor = "roipac" ∨ processor = "gamma") ∧ ext = ".int" then
    some .amplitude_phase
  else if (processor = "roipac" ∨ processor = "gamma") ∧ ext = ".slc" then some .complex
  else if (processor = "roipac" ∨ processor = "gamma") ∧ ext = ".mli" then some .real
  else none

/-- A ROI_PAC `.trans` geometric-offset file over the same bytes as
`envUnw`. -/
def envTrans : Env ℤ := { envUnw with ext := ".trans" }

/-- C2, counterexample.  The claim says two planes come back exactly for
`amplitude_phase` outputs or `.trans`.  A `.unw` file is an
`amplitude_phase` format per the spec's registry, yet `read` returns a
single plane (the phase) for it. -/
theorem read_two_plane_counterexample :
    specOutputKind "roipac" ".unw" = some OutputKind.amplitude_phase ∧
    envUnw.ext = ".unw" ∧
    (read envUnw intOps none "").map ReadResult.isTwo = some false := by decide

/-- C2, amended: a successful `read` returns exactly two data planes iff the
file is the two-channel geometric-offset format (`.trans`); every other
supported input — including the `amplitude_phase` formats, for which `read`
returns only the phase plane — yields exactly one plane. -/
theorem read_two_planes_iff_trans (env : Env σ) (ops : ScalarOps σ) (box? : Option Box)
    (e : String) (r : ReadResult σ)
    (hr : read env ops box? e = some r) :
    r.isTwo = true ↔ env.ext = ".trans" := by
  unfold read at hr
  simp only [Option.bind_eq_bind] at hr
  obtain ⟨atr0, ha0, hr⟩ := Option.bind_eq_some.mp hr
  obtain ⟨p, hp, hr⟩ := Option.bind_eq_some.mp hr
  obtain ⟨atr1, hup, hr⟩ := Option.bind_eq_some.mp hr
  by_cases hh5 : env.ext = ".h5" ∨ env.ext = ".he5"
  · -- container branch: always one plane, and the extension is `.h5`/`.he5`
    rw [if_pos hh5] at hr
    obtain ⟨root, hroot, hr⟩ := Option.bind_eq_some.mp hr
    obtain ⟨k, hk, hr⟩ := Option.bind_eq_some.mp hr
    split at hr
    · obtain ⟨node, hnode, hr⟩ := Option.bind_eq_some.mp hr
      split at hr
      · obtain ⟨dset, hdset, hr⟩ := Option.bind_eq_some.mp hr
        rw [Option.pure_def, Option.some_inj] at hr
        subst hr
        rcases hh5 with h | h <;> rw [h] <;>
          exact iff_of_false (by simp [ReadResult.isTwo]) (by decide)
      · obtain ⟨sub, hsub, hr⟩ := Option.bind_eq_some.mp hr
        obtain ⟨dset, hdset, hr⟩ := Option.bind_eq_some.mp hr
        rw [Option.pure_def, Option.some_inj] at hr
        subst hr
        rcases hh5 with h | h <;> rw [h] <;>
          exact iff_of_false (by simp [ReadResult.isTwo]) (by decide)
    · split at hr
      · obtain ⟨node, hnode, hr⟩ := Option.bind_eq_some.mp hr
        obtain ⟨dset, hdset, hr⟩ := Option.bind_eq_some.mp hr
        rw [Option.pure_def, Option.some_inj] at hr
        subst hr
        rcases hh5 with h | h <;> rw [h] <;>
          exact iff_of_false (by simp [ReadResult.isTwo]) (by decide)
      · cases hr
  · rw [if_neg hh5] at hr
    by_cases himg : env.ext ∈ [".jpeg", ".jpg", ".png", ".ras", ".bmp"]
    · -- browsable-image branch: one plane, and the extension is an image one
      rw [if_pos himg] at hr
      obtain ⟨rows, hrows, hr⟩ := Option.bind_eq_some.mp hr
      obtain ⟨atr2, hatr2, hr⟩ := Option.bind_eq_some.mp hr
      rw [Option.pure_def, Option.some_inj] at hr
      subst hr
      simp only [List.mem_cons, List.not_mem_nil, or_false] at himg
      rcases himg with h | h | h | h | h <;> rw [h] <;>
        exact iff_of_false (by simp [ReadResult.isTwo]) (by decide)
    · rw [if_neg himg] at hr
      by_cases hpi : p = "isce"
      · -- isce branch: one plane, from `.flat`/`.cor`/`.slc` only
        rw [if_pos hpi] at hr
        by_cases hf : env.ext = ".flat"
        · rw [if_pos hf] at hr
          obtain ⟨cf, hcf, hr⟩ := Option.bind_eq_some.mp hr
          cases cf with
          | ap amp pha a =>
              have hr2 : (some (ReadResult.one (cropIf box? pha) a) : Option (ReadResult σ))
                  = some r := hr
              rw [Option.some_inj] at hr2
              subst hr2
              exact iff_of_false (by simp [ReadResult.isTwo]) (by rw [hf]; decide)
          | raw d a =>
              rw [Option.none_bind] at hr
              cases hr
        · rw [if_neg hf] at hr
          by_cases hc : env.ext = ".cor"
          · rw [if_pos hc] at hr
            obtain ⟨y, hy, hr⟩ := Option.bind_eq_some.mp hr
            obtain ⟨data, atr2⟩ := y
            have hr2 : (some (ReadResult.one (cropIf box? data) atr2) : Option (ReadResult σ))
                = some r := hr
            rw [Option.some_inj] at hr2
            subst hr2
            exact iff_of_false (by simp [ReadResult.isTwo]) (by rw [hc]; decide)
          · rw [if_neg hc] at hr
            by_cases hs : env.ext = ".slc"
            · rw [if_pos hs] at hr
              obtain ⟨cf, hcf, hr⟩ := Option.bind_eq_some.mp hr
              cases cf with
              | ap amp pha a =>
                  have hr2 : (some (ReadResult.one (cropIf box? amp) a) : Option (ReadResult σ))
                      = some r := hr
                  rw [Option.some_inj] at hr2
                  subst hr2
                  exact iff_of_false (by simp [ReadResult.isTwo]) (by rw [hs]; decide)
              | raw d a =>
                  rw [Option.none_bind] at hr
                  cases hr
            · rw [if_neg hs] at hr
              rw [Option.none_bind] at hr
              cases hr
      · rw [if_neg hpi] at hr
        by_cases hpr : p = "roipac" ∨ p = "gamma"
        · -- roipac/gamma branch: walk the extension chain
          rw [if_pos hpr] at hr
          by_cases h1 : env.ext ∈ [".unw", ".cor", ".hgt"]
          · rw [if_pos h1] at hr
            obtain ⟨x, hx, hr⟩ := Option.bind_eq_some.mp hr
            obtain ⟨amp, pha, atr2⟩ := x
            have hr2 : (some (ReadResult.one pha atr2) : Option (ReadResult σ)) = some r := hr
            rw [Option.some_inj] at hr2
            subst hr2
            simp only [List.mem_cons, List.not_mem_nil, or_false] at h1
            rcases h1 with h | h | h <;> rw [h] <;>
              exact iff_of_false (by simp [ReadResult.isTwo]) (by decide)
          · rw [if_neg h1] at hr
            by_cases h2 : env.ext = ".dem"
            · rw [if_pos h2] at hr
              obtain ⟨x, hx, hr⟩ := Option.bind_eq_some.mp hr
              obtain ⟨dem, atr2⟩ := x
              have hr2 : (some (ReadResult.one (cropIf box? dem) atr2) : Option (ReadResult σ))
                  = some r := hr
              rw [Option.some_inj] at hr2
              subst hr2
              rw [h2]
              exact iff_of_false (by simp [ReadResult.isTwo]) (by decide)
            · rw [if_neg h2] at hr
              by_cases h3 : env.ext = ".int"
              · rw [if_pos h3] at hr
                obtain ⟨cf, hcf, hr⟩ := Option.bind_eq_some.mp hr
                cases cf with
                | ap amp pha a =>
                    have hr2 : (some (ReadResult.one (cropIf box? pha) a)
                        : Option (ReadResult σ)) = some r := hr
                    rw [Option.some_inj] at hr2
                    subst hr2
                    rw [h3]
                    exact iff_of_false (by simp [ReadResult.isTwo]) (by decide)
                | raw d a =>
                    have hr2 : (none : Option (ReadResult σ)) = some r := hr
                    cases hr2
              · rw [if_neg h3] at hr
                by_cases h4 : env.ext = ".trans"
                · rw [if_pos h4] at hr
                  obtain ⟨x, hx, hr⟩ := Option.bind_eq_some.mp hr
                  obtain ⟨rg, az, atr2⟩ := x
                  have hr2 : (some (ReadResult.two rg az atr2) : Option (ReadResult σ))
                      = some r := hr
                  rw [Option.some_inj] at hr2
                  subst hr2
                  rw [h4]
                  exact iff_of_true (by simp [ReadResult.isTwo]) rfl
                · rw [if_neg h4] at hr
                  by_cases h5 : env.ext = ".mli"
                  · rw [if_pos h5] at hr
                    obtain ⟨x, hx, hr⟩ := Option.bind_eq_some.mp hr
                    obtain ⟨data, atr2⟩ := x
                    have hr2 : (some (ReadResult.one (cropIf box? data) atr2)
                        : Option (ReadResult σ)) = some r := hr
                    rw [Option.some_inj] at hr2
                    subst hr2
                    rw [h5]
                    exact iff_of_false (by simp [ReadResult.isTwo]) (by decide)
                  · rw [if_neg h5] at hr
                    by_cases h6 : env.ext = ".slc"
                    · rw [if_pos h6] at hr
                      obtain ⟨x, hx, hr⟩ := Option.bind_eq_some.mp hr
                      obtain ⟨data, atr2⟩ := x
                      have hr2 : (some (ReadResult.one data atr2) : Option (ReadResult σ))
                          = some r := hr
                      rw [Option.some_inj] at hr2
                      subst hr2
                      rw [h6]
                      exact iff_of_false (by simp [ReadResult.isTwo]) (by decide)
                    · rw [if_neg h6] at hr
                      cases hr
        · rw [if_neg hpr] at hr
          cases hr

/-- C2, witness for the amended theorem: a `.trans` read returns two planes,
matching the iff. -/
theorem read_two_planes_iff_trans_witness :
    ∃ r, read envTrans intOps none "" = some r ∧
      (r.isTwo = true ↔ envTrans.ext = ".trans") :=
  ⟨_, rfl, read_two_planes_iff_trans envTrans intOps none "" _ rfl⟩

/-! ## C5: helper lemmas for the full-window round trip -/

theorem mapMat_shaped (f : σ → σ) (m : Mat σ) (l w : Nat) (h : matShaped m l w) :
    matShaped (mapMat f m) l w := by
  obtain ⟨h1, h2⟩ := h
  refine ⟨by simp [mapMat, h1], ?_⟩
  intro row hrow
  simp only [mapMat, List.mem_map] at hrow
  obtain ⟨r0, hr0, rfl⟩ := hrow
  simp [h2 r0 hr0]

/-- The one-argument `read_float32` call defaults its box to the full
extent, so it computes the same result as the explicit full-extent box. -/
theorem read_float32_box_default (env : Env σ) (atr : AttrMap) (w l : Nat)
    (hatr : read_attributes env = some atr)
    (hw : pyDim atr "WIDTH" = some w)
    (hl : pyDim atr "FILE_LENGTH" = some l) :
    read_float32 env none = read_float32 env (some ⟨0, 0, w, l⟩) := by
  unfold read_float32
  rw [hatr]
  simp only [Option.bind_eq_bind, Option.some_bind]
  rw [hw]
  simp only [Option.some_bind]
  rw [hl]
  simp only [Option.some_bind, Option.getD_some, Option.getD_none]

/-- Similarly for `read_complex_int16`. -/
theorem read_complex_int16_box_default (env : Env σ) (ops : ScalarOps σ)
    (atr : AttrMap) (w l : Nat)
    (hatr : read_attributes env = some atr)
    (hw : pyDim atr "WIDTH" = some w)
    (hl : pyDim atr "FILE_LENGTH" = some l) :
    read_complex_int16 env ops none = read_complex_int16 env ops (some ⟨0, 0, w, l⟩) := by
  unfold read_complex_int16
  rw [hatr]
  simp only [Option.bind_eq_bind, Option.some_bind]
  rw [hw]
  simp only [Option.some_bind]
  rw [hl]
  simp only [Option.some_bind, Option.getD_some, Option.getD_none]

/-- The full-extent box never triggers the attribute recompute. -/
theorem updateAtrForBox_full (atr : AttrMap) (w l : Nat)
    (hw : pyDim atr "WIDTH" = some w) (hl : pyDim atr "FILE_LENGTH" = some l) :
    updateAtrForBox atr (some ⟨0, 0, w, l⟩) = some atr := by
  simp only [updateAtrForBox, Option.bind_eq_bind]
  rw [hw]
  simp only [Option.some_bind]
  rw [hl]
  simp only [Option.some_bind]
  rw [if_neg (by simp)]
  rfl

theorem read_real_float32_shape (env : Env σ) (data : Mat σ) (a atr : AttrMap) (w l : Nat)
    (hatr : read_attributes env = some atr)
    (hw : pyDim atr "WIDTH" = some w)
    (hl : pyDim atr "FILE_LENGTH" = some l)
    (h : read_real_float32 env = some (data, a)) :
    a = atr ∧ matShaped data l w := by
  unfold read_real_float32 at h
  simp only [Option.bind_eq_bind] at h
  obtain ⟨a0, ha0, h⟩ := Option.bind_eq_some.mp h
  rw [hatr] at ha0
  cases ha0
  obtain ⟨w', hw', h⟩ := Option.bind_eq_some.mp h
  obtain ⟨l', hl', h⟩ := Option.bind_eq_some.mp h
  rw [hw] at hw'
  cases hw'
  rw [hl] at hl'
  cases hl'
  obtain ⟨d0, hd0, h⟩ := Option.bind_eq_some.mp h
  have hs := fromfileReshape_shaped _ _ _ _ _ hd0
  rw [Option.pure_def, Option.some_inj] at h
  injection h with h1 h2
  exact ⟨h2.symm, h1 ▸ hs⟩

theorem read_real_int16_shape (env : Env σ) (data : Mat σ) (a atr : AttrMap) (w l : Nat)
    (hatr : read_attributes env = some atr)
    (hw : pyDim atr "WIDTH" = some w)
    (hl : pyDim atr "FILE_LENGTH" = some l)
    (h : read_real_int16 env = some (data, a)) :
    a = atr ∧ matShaped data l w := by
  unfold read_real_int16 at h
  simp only [Option.bind_eq_bind] at h
  obtain ⟨a0, ha0, h⟩ := Option.bind_eq_some.mp h
  rw [hatr] at ha0
  cases ha0
  obtain ⟨w', hw', h⟩ := Option.bind_eq_some.mp h
  obtain ⟨l', hl', h⟩ := Option.bind_eq_some.mp h
  rw [hw] at hw'
  cases hw'
  rw [hl] at hl'
  cases hl'
  obtain ⟨d0, hd0, h⟩ := Option.bind_eq_some.mp h
  have hs := fromfileReshape_shaped _ _ _ _ _ hd0
  rw [Option.pure_def, Option.some_inj] at h
  injection h with h1 h2
  exact ⟨h2.symm, h1 ▸ hs⟩

theorem read_complex_float32_ap_shape (env : Env σ) (ops : ScalarOps σ)
    (amp pha : Mat σ) (a atr : AttrMap) (w l : Nat)
    (hatr : read_attributes env = some atr)
    (hw : pyDim atr "WIDTH" = some w)
    (hl : pyDim atr "FILE_LENGTH" = some l)
    (h : read_complex_float32 env ops 0 = some (.ap amp pha a)) :
    a = atr ∧ matShaped amp l w ∧ matShaped pha l w := by
  unfold read_complex_float32 at h
  simp only [Option.bind_eq_bind] at h
  obtain ⟨a0, ha0, h⟩ := Option.bind_eq_some.mp h
  rw [hatr] at ha0
  cases ha0
  obtain ⟨w', hw', h⟩ := Option.bind_eq_some.mp h
  obtain ⟨l', hl', h⟩ := Option.bind_eq_some.mp h
  rw [hw] at hw'
  cases hw'
  rw [hl] at hl'
  cases hl'
  obtain ⟨d0, hd0, h⟩ := Option.bind_eq_some.mp h
  have hs := fromfileReshape_shaped _ _ _ _ _ hd0
  have h2 : (some (CF32Out.ap (mapMat ops.hypotRI d0) (mapMat ops.atan2IR d0) atr)
      : Option (CF32Out σ)) = some (CF32Out.ap amp pha a) := h
  rw [Option.some_inj] at h2
  injection h2 with e1 e2 e3
  exact ⟨e3.symm, e1 ▸ mapMat_shaped _ _ _ _ hs, e2 ▸ mapMat_shaped _ _ _ _ hs⟩

/-- A dataset reached through `h5get` on a top-level group is among the
containers' depth-3 datasets. -/
theorem h5get_mem_mats3 (root : List (String × H5Node σ)) (k : String)
    (node : H5Node σ) (e : String) (dset : Mat σ)
    (hnode : (root.find? (fun p => p.1 = k)).map (fun p => p.2) = some node)
    (hget : h5get node e = some dset) :
    dset ∈ h5Mats3 root := by
  rw [Option.map_eq_some'] at hnode
  obtain ⟨pr, hpr, hpr2⟩ := hnode
  have hmem := List.mem_of_find?_eq_some hpr
  unfold h5get at hget
  cases hch : h5child node e with
  | none => rw [hch] at hget; cases hget
  | some child =>
      rw [hch] at hget
      unfold h5child at hch
      rw [Option.map_eq_some'] at hch
      obtain ⟨qr, hqr, hqr2⟩ := hch
      have hqmem := List.mem_of_find?_eq_some hqr
      cases child with
      | grp a c => cases hget
      | dset a m =>
          rw [Option.some_inj] at hget
          subst hget
          unfold h5Mats3
          rw [List.mem_flatMap]
          refine ⟨pr, hmem, ?_⟩
          rw [List.mem_append]
          right
          rw [List.mem_flatMap]
          refine ⟨qr, by rw [hpr2]; exact hqmem, ?_⟩
          rw [List.mem_append]
          left
          rw [hqr2]
          exact List.mem_singleton.mpr rfl

/-- A dataset reached through a subgroup (`h5file[k][epoch].get(epoch)`) is
among the container's depth-3 datasets. -/
theorem h5get_mem_mats3_deep (root : List (String × H5Node σ)) (k : String)
    (node sub : H5Node σ) (e : String) (dset : Mat σ)
    (hnode : (root.find? (fun p => p.1 = k)).map (fun p => p.2) = some node)
    (hsub : h5child node e = some sub)
    (hget : h5get sub e = some dset) :
    dset ∈ h5Mats3 root := by
  rw [Option.map_eq_some'] at hnode
  obtain ⟨pr, hpr, hpr2⟩ := hnode
  have hmem := List.mem_of_find?_eq_some hpr
  unfold h5child at hsub
  rw [Option.map_eq_some'] at hsub
  obtain ⟨qr, hqr, hqr2⟩ := hsub
  have hqmem := List.mem_of_find?_eq_some hqr
  unfold h5get at hget
  cases hch : h5child sub e with
  | none => rw [hch] at hget; cases hget
  | some child =>
      rw [hch] at hget
      unfold h5child at hch
      rw [Option.map_eq_some'] at hch
      obtain ⟨tr, htr, htr2⟩ := hch
      have htmem := List.mem_of_find?_eq_some htr
      cases child with
      | grp a c => cases hget
      | dset a m =>
          rw [Option.some_inj] at hget
          subst hget
          unfold h5Mats3
          rw [List.mem_flatMap]
          refine ⟨pr, hmem, ?_⟩
          rw [List.mem_append]
          right
          rw [List.mem_flatMap]
          refine ⟨qr, by rw [hpr2]; exact hqmem, ?_⟩
          rw [List.mem_append]
          right
          rw [List.mem_flatMap]
          refine ⟨tr, by rw [hqr2]; exact htmem, ?_⟩
          rw [htr2]
          exact List.mem_singleton.mpr rfl

/-- C5: for every readable file, decoding with no window and decoding with
an explicit window equal to `(0, 0, WIDTH, FILE_LENGTH)` return identical
data arrays and identical attribute mappings.  (Shape well-formedness is
assumed where the code cannot enforce it: container datasets and the image
pixel matrix have the declared `FILE_LENGTH × WIDTH` shape; the flat-binary
decoders enforce their own shape through `reshape`.) -/
theorem read_full_window_roundtrip (env : Env σ) (ops : ScalarOps σ) (e : String)
    (atr : AttrMap) (w l : Nat)
    (hatr : read_attributes env = some atr)
    (hw : pyDim atr "WIDTH" = some w)
    (hl : pyDim atr "FILE_LENGTH" = some l)
    (hh5m : ∀ m ∈ h5Mats3 (env.h5.getD []), matShaped m l w)
    (himg : matShaped env.img l w) :
    read env ops none e = read env ops (some ⟨0, 0, w, l⟩) e := by
  unfold read
  simp only [Option.bind_eq_bind]
  rw [hatr]
  simp only [Option.some_bind]
  cases hp : aget atr "PROCESSOR" with
  | none => rfl
  | some p =>
      simp only [Option.some_bind]
      rw [show updateAtrForBox atr none = some atr from rfl,
        updateAtrForBox_full atr w l hw hl]
      simp only [Option.some_bind]
      by_cases hh5 : env.ext = ".h5" ∨ env.ext = ".he5"
      · rw [if_pos hh5, if_pos hh5]
        cases hro : env.h5 with
        | none => rfl
        | some root =>
            simp only [Option.some_bind]
            have hh5r : ∀ m ∈ h5Mats3 root, matShaped m l w := by
              rw [hro] at hh5m
              simpa using hh5m
            cases hk : aget atr "FILE_TYPE" with
            | none => rfl
            | some k =>
                simp only [Option.some_bind]
                by_cases hkm : k ∈ ["interferograms", "coherence", "wrapped", "timeseries"]
                · rw [if_pos hkm, if_pos hkm]
                  cases hfind : (root.find? (fun p => p.1 = k)).map (fun p => p.2) with
                  | none => rfl
                  | some node =>
                      simp only [Option.some_bind]
                      by_cases hts : k = "timeseries"
                      · rw [if_pos hts, if_pos hts]
                        cases hget : h5get node e with
                        | none => rfl
                        | some dset =>
                            simp only [Option.some_bind]
                            have hsh := hh5r dset (h5get_mem_mats3 root k node e dset hfind hget)
                            show (some (ReadResult.one dset atr) : Option (ReadResult σ))
                              = some (ReadResult.one (crop2 dset 0 0 w l) atr)
                            rw [crop2_full dset l w hsh]
                      · rw [if_neg hts, if_neg hts]
                        cases hsub : h5child node e with
                        | none => rfl
                        | some sub =>
                            simp only [Option.some_bind]
                            cases hget : h5get sub e with
                            | none => rfl
                            | some dset =>
                                simp only [Option.some_bind]
                                have hsh := hh5r dset
                                  (h5get_mem_mats3_deep root k node sub e dset hfind hsub hget)
                                show (some (ReadResult.one dset atr) : Option (ReadResult σ))
                                  = some (ReadResult.one (crop2 dset 0 0 w l) atr)
                                rw [crop2_full dset l w hsh]
                · rw [if_neg hkm, if_neg hkm]
                  by_cases hk2 : k ∈ ["dem", "mask", "rmse", "temporal_coherence", "velocity"]
                  · rw [if_pos hk2, if_pos hk2]
                    cases hfind : (root.find? (fun p => p.1 = k)).map (fun p => p.2) with
                    | none => rfl
                    | some node =>
                        simp only [Option.some_bind]
                        cases hget : h5get node k with
                        | none => rfl
                        | some dset =>
                            simp only [Option.some_bind]
                            have hsh := hh5r dset (h5get_mem_mats3 root k node k dset hfind hget)
                            show (some (ReadResult.one dset atr) : Option (ReadResult σ))
                              = some (ReadResult.one (crop2 dset 0 0 w l) atr)
                            rw [crop2_full dset l w hsh]
                  · rw [if_neg hk2, if_neg hk2]
      · rw [if_neg hh5, if_neg hh5]
        by_cases him : env.ext ∈ [".jpeg", ".jpg", ".png", ".ras", ".bmp"]
        · rw [if_pos him, if_pos him]
          cases hrsc : env.rsc with
          | none => rfl
          | some rows =>
              simp only [Option.some_bind]
              cases hra : read_roipac_rsc rows with
              | none => rfl
              | some atr2 =>
                  simp only [Option.some_bind]
                  show (some (ReadResult.one env.img atr2) : Option (ReadResult σ))
                    = some (ReadResult.one (crop2 env.img 0 0 w l) atr2)
                  rw [crop2_full env.img l w himg]
        · rw [if_neg him, if_neg him]
          by_cases hpi : p = "isce"
          · rw [if_pos hpi, if_pos hpi]
            by_cases hf : env.ext = ".flat"
            · rw [if_pos hf, if_pos hf]
              cases hcf : read_complex_float32 env ops 0 with
              | none => rfl
              | some cf =>
                  simp only [Option.some_bind]
                  cases cf with
                  | raw d a => rfl
                  | ap amp pha a =>
                      obtain ⟨-, hampsh, hphash⟩ :=
                        read_complex_float32_ap_shape env ops amp pha a atr w l hatr hw hl hcf
                      show (some (ReadResult.one pha a) : Option (ReadResult σ))
                        = some (ReadResult.one (crop2 pha 0 0 w l) a)
                      rw [crop2_full pha l w hphash]
            · rw [if_neg hf, if_neg hf]
              by_cases hc : env.ext = ".cor"
              · rw [if_pos hc, if_pos hc]
                cases hrr : read_real_float32 env with
                | none => rfl
                | some y =>
                    simp only [Option.some_bind]
                    obtain ⟨data, a⟩ := y
                    obtain ⟨-, hsh⟩ :=
                      read_real_float32_shape env data a atr w l hatr hw hl hrr
                    show (some (ReadResult.one data a) : Option (ReadResult σ))
                      = some (ReadResult.one (crop2 data 0 0 w l) a)
                    rw [crop2_full data l w hsh]
              · rw [if_neg hc, if_neg hc]
                by_cases hs : env.ext = ".slc"
                · rw [if_pos hs, if_pos hs]
                  cases hcf : read_complex_float32 env ops 0 with
                  | none => rfl
                  | some cf =>
                      simp only [Option.some_bind]
                      cases cf with
                      | raw d a => rfl
                      | ap amp pha a =>
                          obtain ⟨-, hampsh, hphash⟩ :=
                            read_complex_float32_ap_shape env ops amp pha a atr w l hatr hw hl hcf
                          show (some (ReadResult.one amp a) : Option (ReadResult σ))
                            = some (ReadResult.one (crop2 amp 0 0 w l) a)
                          rw [crop2_full amp l w hampsh]
                · rw [if_neg hs, if_neg hs]
                  rfl
          · rw [if_neg hpi, if_neg hpi]
            by_cases hpr : p = "roipac" ∨ p = "gamma"
            · rw [if_pos hpr, if_pos hpr]
              by_cases h1 : env.ext ∈ [".unw", ".cor", ".hgt"]
              · rw [if_pos h1, if_pos h1, read_float32_box_default env atr w l hatr hw hl]
              · rw [if_neg h1, if_neg h1]
                by_cases h2 : env.ext = ".dem"
                · rw [if_pos h2, if_pos h2]
                  cases hri : read_real_int16 env with
                  | none => rfl
                  | some y =>
                      simp only [Option.some_bind]
                      obtain ⟨dem, a⟩ := y
                      obtain ⟨-, hsh⟩ :=
                        read_real_int16_shape env dem a atr w l hatr hw hl hri
                      show (some (ReadResult.one dem a) : Option (ReadResult σ))
                        = some (ReadResult.one (crop2 dem 0 0 w l) a)
                      rw [crop2_full dem l w hsh]
                · rw [if_neg h2, if_neg h2]
                  by_cases h3 : env.ext = ".int"
                  · rw [if_pos h3, if_pos h3]
                    cases hcf : read_complex_float32 env ops 0 with
                    | none => rfl
                    | some cf =>
                        simp only [Option.some_bind]
                        cases cf with
                        | raw d a => rfl
                        | ap amp pha a =>
                            obtain ⟨-, hampsh, hphash⟩ :=
                              read_complex_float32_ap_shape env ops amp pha a atr w l hatr hw hl hcf
                            show (some (ReadResult.one pha a) : Option (ReadResult σ))
                              = some (ReadResult.one (crop2 pha 0 0 w l) a)
                            rw [crop2_full pha l w hphash]
                  · rw [if_neg h3, if_neg h3]
                    by_cases h4 : env.ext = ".trans"
                    · rw [if_pos h4, if_pos h4, read_float32_box_default env atr w l hatr hw hl]
                    · rw [if_neg h4, if_neg h4]
                      by_cases h5m : env.ext = ".mli"
                      · rw [if_pos h5m, if_pos h5m]
                        cases hrr : read_real_float32 env with
                        | none => rfl
                        | some y =>
                            simp only [Option.some_bind]
                            obtain ⟨data, a⟩ := y
                            obtain ⟨-, hsh⟩ :=
                              read_real_float32_shape env data a atr w l hatr hw hl hrr
                            show (some (ReadResult.one data a) : Option (ReadResult σ))
                              = some (ReadResult.one (crop2 data 0 0 w l) a)
                            rw [crop2_full data l w hsh]
                      · rw [if_neg h5m, if_neg h5m]
                        by_cases h6 : env.ext = ".slc"
                        · rw [if_pos h6, if_pos h6,
                            read_complex_int16_box_default env ops atr w l hatr hw hl]
                        · rw [if_neg h6, if_neg h6]
            · rw [if_neg hpr, if_neg hpr]

/-- C5, witness: the round trip evaluated on the concrete 2×2 `.unw` file. -/
theorem read_full_window_roundtrip_witness :
    read envUnw intOps none "" = read envUnw intOps (some ⟨0, 0, 2, 2⟩) "" :=
  read_full_window_roundtrip envUnw intOps "" atrUnw 2 2
    (by decide) (by decide) (by decide) (by decide) (by decide)

end PySar
